import Mathlib

/-!
Shallow embedding of the forward-shooting solver of
`assortative-matching-large-firms` (`solvers.py`, class `ShootingSolver`).

Real numbers of the program are modelled by `ℚ`.  The external `models.Model`
collaborator is modelled by `ModelEnv`: its population bounds and the numeric
evaluators obtained by lambdifying the symbolic wage / profit /
complementarity / right-hand-side expressions are opaque functions of
`(x, V)`.  The `scipy.integrate.ode` stepper is modelled by `IntegratorEnv`:
given the current `(t, y)` and a target value of the independent variable it
either produces the new state vector (a successful step, after which
`ode.t = target`) or fails (after which `successful()` is false).  Python
`assert` failures and raised `ValueError`s are modelled with `Except`;
`print` output is modelled by an append-only list of message tags.
-/

namespace ShootingSolver

/-- `model.assortativity`, the string `'positive' | 'negative'`. -/
inductive Assortativity
  | positive
  | negative
deriving DecidableEq

/-- A population descriptor (`model.workers` / `model.firms`): skill or
productivity bounds used by the solver. -/
structure Population where
  lower : ℚ
  upper : ℚ
deriving DecidableEq

/-- The read-only `models.Model` collaborator together with the compiled
numeric evaluators the solver obtains from it (`evaluate_wage`,
`evaluate_profit`, the four complementarities and the ODE right-hand side,
all functions of the independent variable `x` and the state `V = (mu, theta)`). -/
structure ModelEnv where
  assortativity : Assortativity
  workers : Population
  firms : Population
  inputTypes : ℚ → ℚ × ℚ → ℚ
  quantities : ℚ → ℚ × ℚ → ℚ
  spanOfControl : ℚ → ℚ × ℚ → ℚ
  typeResource : ℚ → ℚ × ℚ → ℚ
  wage : ℚ → ℚ × ℚ → ℚ
  profit : ℚ → ℚ × ℚ → ℚ
  rhs : ℚ → ℚ × ℚ → ℚ × ℚ

/-- State of `scipy.integrate.ode`: current independent variable `t`, current
state vector `y = (mu, theta)` and the `successful()` flag. -/
structure IntegratorState where
  t : ℚ
  y : ℚ × ℚ
  success : Bool
deriving DecidableEq

/-- Behaviour of one `integrator.integrate(target)` call: from the current
`(t, y)` and the target, either the new state vector or a failed step. -/
abbrev IntegratorEnv : Type := ℚ → ℚ × ℚ → ℚ → Option (ℚ × ℚ)

/-- `integrator.integrate(target)`: on success `t` becomes `target` and `y`
the new state; on failure `t` and `y` are left in place and `successful()`
becomes false. -/
def integrateTo (env : IntegratorEnv) (s : IntegratorState) (target : ℚ) :
    IntegratorState :=
  match env s.t s.y target with
  | some ynew => ⟨target, ynew, true⟩
  | none => ⟨s.t, s.y, false⟩

/-- The fatal conditions of the solver: the three positivity `assert`s, the
bracket-collapse `assert` of `_update_initial_guess`, the `ValueError` of
`_validate_solution`, and the `assert step_size > 0` of `solve`. -/
inductive SolverError
  | wageNonpositive
  | profitNonpositive
  | firmSizeNonpositive
  | bracketCollapse
  | validationFailed
  | stepSizeNonpositive
deriving DecidableEq

/-- Tags for the `print` calls made by `solve`, in place of the literal
message strings. -/
inductive Msg
  | guessUpperTooLow
  | successAllMatched
  | exhaustedFirmsNotConverged
  | exhaustedFirmsConverged
  | exhaustedWorkers
deriving DecidableEq

/-- Why the `while` loop of `solve` stopped (`break` statements and the
`while self.integrator.successful()` guard). -/
inductive ExitReason
  | guessUpperTooLow
  | success
  | integratorFailed
deriving DecidableEq

/-- One row of the `_solution` array:
`(x, firm productivity, firm size, wage, profit)`. -/
structure Row where
  x : ℚ
  firmProductivity : ℚ
  firmSize : ℚ
  wage : ℚ
  profit : ℚ
deriving DecidableEq

/-- The mutable attributes live during one `solve` call: integrator state,
the `_solution` array, the bisection bracket, the current guess, and the
`print` output so far. -/
structure LoopState where
  integ : IntegratorState
  solution : List Row
  firmSizeLower : ℚ
  firmSizeUpper : ℚ
  guessFirmSize : ℚ
  messages : List Msg
deriving DecidableEq

/-- Caller-supplied arguments of `solve` (the integrator name and its keyword
options select the abstract `IntegratorEnv` and are not data here). -/
structure SolveParams where
  guessFirmSizeUpper : ℚ
  tol : ℚ
  numberKnots : ℕ
  message : Bool
deriving DecidableEq

/-- Python's `abs` on numbers, written so that it evaluates by cases. -/
def ratAbs (q : ℚ) : ℚ := if q < 0 then -q else q

/-- Equality of `Except` results is decidable componentwise. -/
instance {ε α : Type} [DecidableEq ε] [DecidableEq α] : DecidableEq (Except ε α)
  | .error a, .error b => decidable_of_iff (a = b) (by simp)
  | .error _, .ok _ => .isFalse (fun h => by cases h)
  | .ok _, .error _ => .isFalse (fun h => by cases h)
  | .ok a, .ok b => decidable_of_iff (a = b) (by simp)

/-- `evaluate_wage`: evaluates the compiled wage expression and
`assert wage > 0.0`. -/
def evaluateWage (m : ModelEnv) (x : ℚ) (V : ℚ × ℚ) : Except SolverError ℚ :=
  if 0 < m.wage x V then .ok (m.wage x V) else .error .wageNonpositive

/-- `evaluate_profit`: evaluates the compiled profit expression and
`assert profit > 0.0`. -/
def evaluateProfit (m : ModelEnv) (x : ℚ) (V : ℚ × ℚ) : Except SolverError ℚ :=
  if 0 < m.profit x V then .ok (m.profit x V) else .error .profitNonpositive

/-- Default absolute tolerance of `np.isclose(a, 0)`: `atol = 1e-8` (the
relative part vanishes because the reference value is `0`). -/
def iscloseZeroAtol : ℚ := 1 / 100000000

/-- `_check_pam(step)`: with `x = step[0]` and `V = step[1:3]`, compute
`LHS = input_types * quantities` and `RHS = span_of_control * type_resource`;
the check passes if `np.isclose(LHS - RHS, 0)` or else if `LHS > RHS`. -/
def checkPam (m : ModelEnv) (step : Row) : Bool :=
  if ratAbs (m.inputTypes step.x (step.firmProductivity, step.firmSize) *
          m.quantities step.x (step.firmProductivity, step.firmSize) -
        m.spanOfControl step.x (step.firmProductivity, step.firmSize) *
          m.typeResource step.x (step.firmProductivity, step.firmSize)) ≤
      iscloseZeroAtol then true
  else
    decide (m.spanOfControl step.x (step.firmProductivity, step.firmSize) *
        m.typeResource step.x (step.firmProductivity, step.firmSize) <
      m.inputTypes step.x (step.firmProductivity, step.firmSize) *
        m.quantities step.x (step.firmProductivity, step.firmSize))

/-- `_validate_solution(solution)`: apply `_check_pam` along the rows; raise
`ValueError` when assortativity is positive and not every row checks, or when
assortativity is negative and every row checks. -/
def validateSolution (m : ModelEnv) (sol : List Row) : Except SolverError Unit :=
  let check := sol.map (checkPam m)
  match m.assortativity with
  | .positive => if check.all (fun b => b) then .ok () else .error .validationFailed
  | .negative => if check.all (fun b => b) then .error .validationFailed else .ok ()

/-- `_converged_firms(tol)`: `abs(integrator.y[0] - model.firms.lower) <= tol`. -/
def convergedFirms (m : ModelEnv) (integ : IntegratorState) (tol : ℚ) : Bool :=
  decide (ratAbs (integ.y.1 - m.firms.lower) ≤ tol)

/-- `_converged_workers(tol)`: the independent variable is within `tol` of the
worker lower bound for positive assortativity, of the worker upper bound
otherwise. -/
def convergedWorkers (m : ModelEnv) (integ : IntegratorState) (tol : ℚ) : Bool :=
  match m.assortativity with
  | .positive => decide (ratAbs (integ.t - m.workers.lower) ≤ tol)
  | .negative => decide (ratAbs (integ.t - m.workers.upper) ≤ tol)

/-- `_exhausted_firms(tol)`: `integrator.y[0] - model.firms.lower < -tol`. -/
def exhaustedFirms (m : ModelEnv) (integ : IntegratorState) (tol : ℚ) : Bool :=
  decide (integ.y.1 - m.firms.lower < -tol)

/-- `_guess_firm_size_upper_too_low(bound, tol)`:
`abs(integrator.y[1] - bound) <= tol`. -/
def guessFirmSizeUpperTooLow (bound tol : ℚ) (integ : IntegratorState) : Bool :=
  decide (ratAbs (integ.y.2 - bound) ≤ tol)

/-- `np.finfo('float').eps`, the double-precision machine epsilon `2 ** -52`. -/
def machineEps : ℚ := 1 / 2 ^ 52

/-- `_update_initial_guess(lower, upper)`:
`assert (upper - lower) > eps` and return the midpoint `0.5 * (lower + upper)`. -/
def updateInitialGuess (lower upper : ℚ) : Except SolverError ℚ :=
  if machineEps < upper - lower then .ok ((lower + upper) / 2)
  else .error .bracketCollapse

/-- Shared block of the two `_reset_solution` branches, at a given boundary
anchor `x`: set the integrator to `(x, (firms.upper, firm_size))`, evaluate
wage and profit there, and make `_solution` the single boundary row
`hstack((x, initial_V, wage, profit))`. -/
def resetAt (m : ModelEnv) (anchor firmSize : ℚ) (success : Bool) :
    Except SolverError (IntegratorState × List Row) :=
  match evaluateWage m anchor (m.firms.upper, firmSize) with
  | .error e => .error e
  | .ok w =>
    match evaluateProfit m anchor (m.firms.upper, firmSize) with
    | .error e => .error e
    | .ok pr =>
      .ok (⟨anchor, (m.firms.upper, firmSize), success⟩,
        [⟨anchor, m.firms.upper, firmSize, w, pr⟩])

/-- `_reset_solution(firm_size)`: the boundary block at the worker upper
bound for positive assortativity, at the worker lower bound otherwise (the
two source branches differ only in that anchor).  The `success` argument
carries the integrator's `successful()` flag, which `set_initial_value`
does not touch. -/
def resetSolution (m : ModelEnv) (firmSize : ℚ) (success : Bool) :
    Except SolverError (IntegratorState × List Row) :=
  match m.assortativity with
  | .positive => resetAt m m.workers.upper firmSize success
  | .negative => resetAt m m.workers.lower firmSize success

/-- Target handed to `integrator.integrate` by `_update_solution`:
`t - step_size` for positive assortativity, `t + step_size` for negative. -/
def integrationTarget (m : ModelEnv) (stepSize : ℚ) (integ : IntegratorState) : ℚ :=
  match m.assortativity with
  | .positive => integ.t - stepSize
  | .negative => integ.t + stepSize

/-- Tail of `_update_solution` after the `integrator.integrate` call, taking
the stepped integrator state: `assert V[1] > 0.0`, evaluate wage and profit
at the new point (each with its own positivity `assert`) and append the row
`(x, V[0], V[1], wage, profit)` to `_solution`. -/
def appendStep (m : ModelEnv) (integ2 : IntegratorState) (sol : List Row) :
    Except SolverError (IntegratorState × List Row) :=
  if integ2.y.2 ≤ 0 then .error .firmSizeNonpositive
  else
    match evaluateWage m integ2.t integ2.y with
    | .error e => .error e
    | .ok w =>
      match evaluateProfit m integ2.t integ2.y with
      | .error e => .error e
      | .ok pr =>
        .ok (integ2, sol ++ [⟨integ2.t, integ2.y.1, integ2.y.2, w, pr⟩])

/-- `_update_solution(step_size)`: advance the integrator one step towards
the assortativity-dependent target, then run the append tail above. -/
def updateSolution (m : ModelEnv) (ienv : IntegratorEnv) (stepSize : ℚ)
    (integ : IntegratorState) (sol : List Row) :
    Except SolverError (IntegratorState × List Row) :=
  appendStep m (integrateTo ienv integ (integrationTarget m stepSize integ)) sol

/-- Result of one pass through the body of the `while` loop of `solve`:
either the loop stops (a `break`, or the `while` guard is false), or it
continues with an updated state. -/
inductive BodyOut
  | halt (reason : ExitReason) (st : LoopState)
  | next (st : LoopState)

/-- Tail of a bracket-updating branch of the loop: recompute the guess by
bisection (`_update_initial_guess`, which asserts the bracket is wider than
machine epsilon) and rebuild the boundary-condition row
(`_reset_solution(guess_firm_size)`). -/
def afterBracket (m : ModelEnv) (st : LoopState) (lower upper : ℚ)
    (msgs : List Msg) : Except SolverError BodyOut :=
  match updateInitialGuess lower upper with
  | .error e => .error e
  | .ok g =>
    match resetSolution m g st.integ.success with
    | .error e => .error e
    | .ok is => .ok (.next ⟨is.1, is.2, lower, upper, g, st.messages ++ msgs⟩)

/-- One pass of the `while self.integrator.successful():` loop of `solve`,
including the guard itself: the guess-too-low break, one `_update_solution`
step, and the five-way classification on
`_converged_workers` / `_converged_firms` / `_exhausted_firms`. -/
def loopBody (m : ModelEnv) (ienv : IntegratorEnv) (p : SolveParams)
    (stepSize : ℚ) (st : LoopState) : Except SolverError BodyOut :=
  if st.integ.success = false then .ok (.halt .integratorFailed st)
  else if guessFirmSizeUpperTooLow p.guessFirmSizeUpper p.tol st.integ = true then
    .ok (.halt .guessUpperTooLow
      ⟨st.integ, st.solution, st.firmSizeLower, st.firmSizeUpper, st.guessFirmSize,
        st.messages ++ (if p.message = true then [Msg.guessUpperTooLow] else [])⟩)
  else
    match updateSolution m ienv stepSize st.integ st.solution with
    | .error e => .error e
    | .ok is =>
      match convergedWorkers m is.1 p.tol, convergedFirms m is.1 p.tol,
          exhaustedFirms m is.1 p.tol with
      | true, true, _ =>
        match validateSolution m is.2 with
        | .error e => .error e
        | .ok _ =>
          .ok (.halt .success
            ⟨is.1, is.2, st.firmSizeLower, st.firmSizeUpper, st.guessFirmSize,
              st.messages ++ [Msg.successAllMatched]⟩)
      | false, _, true =>
        afterBracket m
          ⟨is.1, is.2, st.firmSizeLower, st.firmSizeUpper, st.guessFirmSize, st.messages⟩
          st.guessFirmSize st.firmSizeUpper
          (if p.message = true then [Msg.exhaustedFirmsNotConverged] else [])
      | true, _, true =>
        afterBracket m
          ⟨is.1, is.2, st.firmSizeLower, st.firmSizeUpper, st.guessFirmSize, st.messages⟩
          st.guessFirmSize st.firmSizeUpper
          (if p.message = true then [Msg.exhaustedFirmsConverged] else [])
      | true, _, false =>
        afterBracket m
          ⟨is.1, is.2, st.firmSizeLower, st.firmSizeUpper, st.guessFirmSize, st.messages⟩
          st.firmSizeLower st.guessFirmSize
          (if p.message = true then [Msg.exhaustedWorkers] else [])
      | false, _, false =>
        .ok (.next
          ⟨is.1, is.2, st.firmSizeLower, st.firmSizeUpper, st.guessFirmSize, st.messages⟩)

/-- The `while` loop of `solve`, driven by `loopBody`.  `fuel` is a modelling
device only: the Python loop has no iteration counter, so a result of
`(none, st)` means the loop had not stopped after `fuel` iterations. -/
def solveLoop (m : ModelEnv) (ienv : IntegratorEnv) (p : SolveParams)
    (stepSize : ℚ) : ℕ → LoopState →
    Except SolverError (Option ExitReason × LoopState)
  | 0, st => .ok (none, st)
  | fuel + 1, st =>
    match loopBody m ienv p stepSize st with
    | .error e => .error e
    | .ok (.halt r sth) => .ok (some r, sth)
    | .ok (.next stn) => solveLoop m ienv p stepSize fuel stn

/-- Fixed step size of `solve`:
`(x_upper - x_lower) / (number_knots - 1)`. -/
def solveStepSize (m : ModelEnv) (p : SolveParams) : ℚ :=
  (m.workers.upper - m.workers.lower) / ((p.numberKnots : ℚ) - 1)

/-- Initialisation phase of `solve`: bracket
`[firm_size_lower, firm_size_upper] = [0, guess_firm_size_upper]`, guess
`0.5 * (firm_size_upper + firm_size_lower)`, and `_reset_solution(guess)`.
A fresh integrator starts with `successful()` true. -/
def solveInit (m : ModelEnv) (p : SolveParams) : Except SolverError LoopState :=
  match resetSolution m ((p.guessFirmSizeUpper + 0) / 2) true with
  | .error e => .error e
  | .ok is =>
    .ok ⟨is.1, is.2, 0, p.guessFirmSizeUpper, (p.guessFirmSizeUpper + 0) / 2, []⟩

/-- `solve(guess_firm_size_upper, tol, number_knots, ...)`: initialise,
`assert step_size > 0`, then run the shooting loop. -/
def solve (m : ModelEnv) (ienv : IntegratorEnv) (p : SolveParams) (fuel : ℕ) :
    Except SolverError (Option ExitReason × LoopState) :=
  match solveInit m p with
  | .error e => .error e
  | .ok st0 =>
    if solveStepSize m p ≤ 0 then .error .stepSizeNonpositive
    else solveLoop m ienv p (solveStepSize m p) fuel st0

/-- The boundary anchor of `_reset_solution`: the worker upper bound for
positive assortativity, the worker lower bound for negative. -/
def boundaryAnchor (m : ModelEnv) : ℚ :=
  match m.assortativity with
  | .positive => m.workers.upper
  | .negative => m.workers.lower

/-- Ascending order on rows by the `x` column, the key `df.sort('x')` uses. -/
def rowLe (a b : Row) : Prop := a.x ≤ b.x

instance : DecidableRel rowLe := fun a b => inferInstanceAs (Decidable (a.x ≤ b.x))

instance : IsTotal Row rowLe := ⟨fun a b => le_total a.x b.x⟩

instance : IsTrans Row rowLe := ⟨fun _ _ _ h1 h2 => le_trans h1 h2⟩

/-- `df.sort('x')`: the rows ordered ascending by the `x` column. -/
def sortByX (l : List Row) : List Row := List.insertionSort rowLe l

/-- The `solution` property: build a labelled table from the stored
`_solution` array; for positive assortativity sort it ascending by `x`,
otherwise leave it in integration order (`set_index` is presentational and
keeps the columns). -/
def solutionTable (assort : Assortativity) (stored : List Row) : List Row :=
  match assort with
  | .positive => sortByX stored
  | .negative => stored

/-- One access of the public `solution` property, with the stored trajectory
it leaves behind.  The property body assigns nothing to `_solution`, and the
in-place sort acts on the freshly built frame (pandas `take` materialises new
blocks), so the stored array comes back unchanged. -/
def readSolution (assort : Assortativity) (stored : List Row) :
    List Row × List Row :=
  (solutionTable assort stored, stored)

/-- The `scipy.interpolate` pair used by `interpolate`: `splprep` builds a
parametric B-spline representation (of abstract type `T`) from the data
points, the parameter values `u`, the degree `k` and the smoothing factor
`s`; `splev` evaluates a derivative of order `der` of it at the query points,
under extrapolation policy `ext`. -/
structure SplineEnv (T : Type) where
  splprep : List (ℚ × ℚ) → List ℚ → ℕ → ℚ → T
  splev : List ℚ → T → ℕ → ℕ → List (ℚ × ℚ)

/-- `interpolate(x, k, der, ext)`: take the parameter values `u` and the two
state columns from the public `solution` table, fit the parametric B-spline
with smoothing `s = 0` (which forces exact interpolation), and evaluate its
order-`der` derivative at the query points. -/
def interpolate {T : Type} (se : SplineEnv T) (m : ModelEnv) (traj : List Row)
    (x : List ℚ) (k der ext : ℕ) : List (ℚ × ℚ) :=
  let tbl := solutionTable m.assortativity traj
  let u := tbl.map Row.x
  let pts := tbl.map (fun r => (r.firmProductivity, r.firmSize))
  let tck := se.splprep pts u k 0
  se.splev x tck der ext

/-- `evaluate_residual(x, k, ext)`: the order-1 derivative of the fitted
spline at the query points, minus the ODE right-hand side evaluated at the
spline's own order-0 values there (`rhs_ode[i] = evaluate_rhs(x[i], soln[i])`),
subtracted componentwise. -/
def evaluateResidual {T : Type} (se : SplineEnv T) (m : ModelEnv)
    (traj : List Row) (x : List ℚ) (k ext : ℕ) : List (ℚ × ℚ) :=
  ((interpolate se m traj x k 1 ext).zip
      ((x.zip (interpolate se m traj x k 0 ext)).map (fun q => m.rhs q.1 q.2))).map
    (fun q => (q.1.1 - q.2.1, q.1.2 - q.2.2))

/-- True when a `solve` run neither stopped nor raised within the given
number of loop iterations. -/
def stillRunning (r : Except SolverError (Option ExitReason × LoopState)) : Bool :=
  match r with
  | .ok (none, _) => true
  | _ => false

/-- The stop reason of a `solve` run, when it stopped normally. -/
def exitReasonOf (r : Except SolverError (Option ExitReason × LoopState)) :
    Option ExitReason :=
  match r with
  | .ok (some reason, _) => some reason
  | _ => none

/-- The `print` output of a `solve` run that returned normally. -/
def messagesOf (r : Except SolverError (Option ExitReason × LoopState)) :
    Option (List Msg) :=
  match r with
  | .ok (_, st) => some st.messages
  | .error _ => none

/-- Reading of the claim's firms-converged test, following its words: the
firm-size state component (`theta`, component 1 of the state) is within `tol`
of the firm lower bound. -/
def specConvergedFirmsC1 (m : ModelEnv) (integ : IntegratorState) (tol : ℚ) : Bool :=
  decide (ratAbs (integ.y.2 - m.firms.lower) ≤ tol)

/-- Reading of the claim's firms-exhausted test, following its words: the
firm-size state component has dropped below the firm lower bound by more
than `tol`. -/
def specExhaustedFirmsC1 (m : ModelEnv) (integ : IntegratorState) (tol : ℚ) : Bool :=
  decide (integ.y.2 - m.firms.lower < -tol)

/-- Reading of the claim's validation rule, following its words: positive
assortativity raises when not every row satisfies the condition; negative
assortativity raises when any row satisfies it. -/
def specValidateRaisesC2 (m : ModelEnv) (sol : List Row) : Bool :=
  match m.assortativity with
  | .positive => !((sol.map (checkPam m)).all (fun b => b))
  | .negative => (sol.map (checkPam m)).any (fun b => b)

/-- The pointwise PAM condition of `_check_pam`, as a proposition:
`LHS ≈ RHS` within the `np.isclose` tolerance, or `LHS > RHS`, with
`LHS = input_types * quantities` and `RHS = span_of_control * type_resource`. -/
def pamHolds (m : ModelEnv) (step : Row) : Prop :=
  ratAbs (m.inputTypes step.x (step.firmProductivity, step.firmSize) *
        m.quantities step.x (step.firmProductivity, step.firmSize) -
      m.spanOfControl step.x (step.firmProductivity, step.firmSize) *
        m.typeResource step.x (step.firmProductivity, step.firmSize)) ≤
    iscloseZeroAtol ∨
  m.spanOfControl step.x (step.firmProductivity, step.firmSize) *
      m.typeResource step.x (step.firmProductivity, step.firmSize) <
    m.inputTypes step.x (step.firmProductivity, step.firmSize) *
      m.quantities step.x (step.firmProductivity, step.firmSize)

/-- A model whose evaluators are all constant (`1` for the scalar
expressions, `(0, 0)` for the right-hand side), for concrete runs. -/
def constModel (a : Assortativity) (w f : Population) : ModelEnv :=
  ⟨a, w, f, fun _ _ => 1, fun _ _ => 1, fun _ _ => 1, fun _ _ => 1,
    fun _ _ => 1, fun _ _ => 1, fun _ _ => (0, 0)⟩

/-- Positive-assortativity model on worker and firm ranges `[0, 1]`. -/
def mPos : ModelEnv := constModel .positive ⟨0, 1⟩ ⟨0, 1⟩

/-- Model for the validation counterexample: negative assortativity, with
`input_types = x`, `quantities = 1`, `span_of_control = 0`,
`type_resource = 0`, so a row checks PAM exactly when its `x` is positive. -/
def mC2 : ModelEnv :=
  ⟨.negative, ⟨0, 1⟩, ⟨0, 1⟩, fun x _ => x, fun _ _ => 1, fun _ _ => 0,
    fun _ _ => 0, fun _ _ => 1, fun _ _ => 1, fun _ _ => (0, 0)⟩

/-- Trajectory with one row satisfying the PAM condition (`x = 1`) and one
failing it (`x = -1`). -/
def trajC2 : List Row := [⟨1, 1, 1, 1, 1⟩, ⟨-1, 1, 1, 1, 1⟩]

/-- Integrator whose steps always succeed and always land on the state
`(5, 10)`: firms neither converge nor get exhausted, and the firm size stays
far from any small guess bound. -/
def ienvConst : IntegratorEnv := fun _ _ _ => some (5, 10)

/-- Arguments with `number_knots = 3` (step size `1/2` on workers `[0, 1]`),
`tol = 1/1000`, progress messages off. -/
def pC7 : SolveParams := ⟨1, 1 / 1000, 3, false⟩

/-- Arguments whose upper guess bound `1/1000` makes the very first
guess-too-low check fire (the initial guess `1/2000` is within `tol` of the
bound), with progress messages off. -/
def pC8 : SolveParams := ⟨1 / 1000, 1 / 1000, 3, false⟩

/-- Same arguments with progress messages on. -/
def pC8msg : SolveParams := ⟨1 / 1000, 1 / 1000, 3, true⟩

/-- A loop state sitting at the boundary with the guess-too-low test true
for the bound `1/1000` of `pC8`. -/
def stC8 : LoopState := ⟨⟨1, (1, 1 / 2000), true⟩, [⟨1, 1, 1 / 2000, 1, 1⟩], 0, 1 / 1000, 1 / 2000, []⟩

/-- A loop state one step before an exhausted-firms classification, used to
exercise the bracket update: bracket `[0, 1]`, guess `1/2`. -/
def stC3 : LoopState := ⟨⟨1, (1, 1 / 2), true⟩, [⟨1, 1, 1 / 2, 1, 1⟩], 0, 1, 1 / 2, []⟩

/-- Integrator that always lands on `(-5, 10)`: the firm-productivity
component overshoots the firm lower bound, so firms classify as exhausted. -/
def ienvExhaust : IntegratorEnv := fun _ _ _ => some (-5, 10)

/-- Integrator that always lands on `(5, -1)`: a non-positive firm size,
which must trip the positivity `assert` of `_update_solution`. -/
def ienvBadSize : IntegratorEnv := fun _ _ _ => some (5, -1)

/-- The loop state `solveInit` produces from `mPos` and `pC7`. -/
def st0C4 : LoopState :=
  ⟨⟨1, (1, 1 / 2), true⟩, [⟨1, 1, 1 / 2, 1, 1⟩], 0, 1, 1 / 2, []⟩

/-- The integrator state after one `_update_solution` step of `stC3` under
`ienvExhaust`. -/
def integ2C3 : IntegratorState := ⟨1 / 2, (-5, 10), true⟩

/-- The solution array after that step. -/
def sol2C3 : List Row := [⟨1, 1, 1 / 2, 1, 1⟩, ⟨1 / 2, -5, 10, 1, 1⟩]

/-- The loop state after the exhausted-firms bracket update from `stC3`:
lower bound raised to the guess `1/2`, new guess `3/4`, boundary row rebuilt. -/
def stOutC3 : LoopState :=
  ⟨⟨1, (1, 3 / 4), true⟩, [⟨1, 1, 3 / 4, 1, 1⟩], 1 / 2, 1, 3 / 4, []⟩

/-- The integrator state after one `_update_solution` step of `stC3` under
`ienvConst`. -/
def integ2C5 : IntegratorState := ⟨1 / 2, (5, 10), true⟩

/-- The solution array after that step. -/
def sol2C5 : List Row := [⟨1, 1, 1 / 2, 1, 1⟩, ⟨1 / 2, 5, 10, 1, 1⟩]

/-- A concrete spline environment whose representation type is `ℕ` and whose
evaluation returns `(t + der, t)` at each query point `t`. -/
def seC9 : SplineEnv ℕ :=
  ⟨fun _ _ _ _ => 0, fun xs _ der _ => xs.map (fun t => (t + (der : ℚ), t))⟩

/-- A one-row trajectory for the residual computation. -/
def trajC9 : List Row := [⟨0, 1, 1, 1, 1⟩]

/-- Query points for the residual computation. -/
def xC9 : List ℚ := [2, 5]

/-! Helper lemmas shared by the claim theorems. -/

/-- The case-split absolute value agrees with the lattice one. -/
theorem ratAbs_eq_abs (q : ℚ) : ratAbs q = |q| := by
  unfold ratAbs
  split
  · rename_i h
    exact (abs_of_neg h).symm
  · rename_i h
    exact (abs_of_nonneg (not_lt.mp h)).symm

/-- `_check_pam` returns true exactly when the propositional PAM condition
holds at the row. -/
theorem checkPam_eq_true_iff (m : ModelEnv) (r : Row) :
    checkPam m r = true ↔ pamHolds m r := by
  unfold checkPam pamHolds
  split
  · rename_i h
    simp [h]
  · rename_i h
    simp [h]

/-- The firms-converged and firms-exhausted tests are mutually exclusive. -/
theorem convergedFirms_exhaustedFirms_exclusive (m : ModelEnv)
    (integ : IntegratorState) (tol : ℚ) :
    convergedFirms m integ tol = true → exhaustedFirms m integ tol = true → False := by
  simp only [convergedFirms, exhaustedFirms, decide_eq_true_eq, ratAbs_eq_abs]
  intro h1 h2
  have := (abs_le.mp h1).1
  linarith

/-- Index access through `List.zip`. -/
theorem get?_zip_eq_some {α β : Type} (as : List α) (bs : List β) (i : ℕ)
    (a : α) (b : β) (ha : as.get? i = some a) (hb : bs.get? i = some b) :
    (as.zip bs).get? i = some (a, b) := by
  induction as generalizing bs i with
  | nil => simp at ha
  | cons x xs ih =>
    cases bs with
    | nil => simp at hb
    | cons y ys =>
      cases i with
      | zero =>
        simp only [List.get?_cons_zero, Option.some.injEq] at ha hb
        subst ha
        subst hb
        simp [List.zip_cons_cons]
      | succ n =>
        simp only [List.get?_cons_succ] at ha hb
        simpa [List.zip_cons_cons] using ih ys n ha hb

/-- Inversion of a successful append tail of `_update_solution`: the three
positivity asserts passed and exactly one row with the evaluated wage and
profit was appended. -/
theorem appendStep_ok_inv (m : ModelEnv) (integ2 integ3 : IntegratorState)
    (sol sol2 : List Row) (h : appendStep m integ2 sol = .ok (integ3, sol2)) :
    integ3 = integ2 ∧
    0 < integ2.y.2 ∧ 0 < m.wage integ2.t integ2.y ∧ 0 < m.profit integ2.t integ2.y ∧
    sol2 = sol ++ [⟨integ2.t, integ2.y.1, integ2.y.2, m.wage integ2.t integ2.y,
      m.profit integ2.t integ2.y⟩] := by
  unfold appendStep evaluateWage evaluateProfit at h
  split at h
  · exact absurd h (by simp)
  · rename_i hpos
    split at h
    · cases h
    · rename_i w hw
      split at h
      · cases h
      · rename_i pr hp
        split at hw
        · rename_i hw0
          cases hw
          split at hp
          · rename_i hp0
            cases hp
            rw [Except.ok.injEq, Prod.mk.injEq] at h
            obtain ⟨h1, h2⟩ := h
            exact ⟨h1.symm, lt_of_not_le hpos, hw0, hp0, h2.symm⟩
          · cases hp
        · cases hw

/-- Inversion of a successful `_update_solution` step: additionally, the new
integrator state is the stepped one. -/
theorem updateSolution_ok_inv (m : ModelEnv) (ienv : IntegratorEnv)
    (stepSize : ℚ) (integ integ2 : IntegratorState) (sol sol2 : List Row)
    (h : updateSolution m ienv stepSize integ sol = .ok (integ2, sol2)) :
    integ2 = integrateTo ienv integ (integrationTarget m stepSize integ) ∧
    0 < integ2.y.2 ∧ 0 < m.wage integ2.t integ2.y ∧ 0 < m.profit integ2.t integ2.y ∧
    sol2 = sol ++ [⟨integ2.t, integ2.y.1, integ2.y.2, m.wage integ2.t integ2.y,
      m.profit integ2.t integ2.y⟩] := by
  have h2 := appendStep_ok_inv m _ integ2 sol sol2 h
  obtain ⟨h1, hrest⟩ := h2
  subst h1
  exact ⟨rfl, hrest⟩

/-- Inversion of a successful boundary block at a given anchor. -/
theorem resetAt_ok_inv (m : ModelEnv) (anchor firmSize : ℚ) (success : Bool)
    (i0 : IntegratorState) (s0 : List Row)
    (h : resetAt m anchor firmSize success = .ok (i0, s0)) :
    i0 = ⟨anchor, (m.firms.upper, firmSize), success⟩ ∧
    0 < m.wage anchor (m.firms.upper, firmSize) ∧
    0 < m.profit anchor (m.firms.upper, firmSize) ∧
    s0 = [⟨anchor, m.firms.upper, firmSize,
      m.wage anchor (m.firms.upper, firmSize),
      m.profit anchor (m.firms.upper, firmSize)⟩] := by
  unfold resetAt evaluateWage evaluateProfit at h
  split at h
  · cases h
  · rename_i w hw
    split at h
    · cases h
    · rename_i pr hp
      split at hw
      · rename_i hw0
        cases hw
        split at hp
        · rename_i hp0
          cases hp
          rw [Except.ok.injEq, Prod.mk.injEq] at h
          obtain ⟨h1, h2⟩ := h
          exact ⟨h1.symm, hw0, hp0, h2.symm⟩
        · cases hp
      · cases hw

/-- Inversion of a successful `_reset_solution`: the integrator sits at the
boundary anchor with state `(firms.upper, firm_size)`, the wage and profit
asserts passed, and the solution is the single boundary-condition row. -/
theorem resetSolution_ok_inv (m : ModelEnv) (firmSize : ℚ) (success : Bool)
    (i0 : IntegratorState) (s0 : List Row)
    (h : resetSolution m firmSize success = .ok (i0, s0)) :
    i0 = ⟨boundaryAnchor m, (m.firms.upper, firmSize), success⟩ ∧
    0 < m.wage (boundaryAnchor m) (m.firms.upper, firmSize) ∧
    0 < m.profit (boundaryAnchor m) (m.firms.upper, firmSize) ∧
    s0 = [⟨boundaryAnchor m, m.firms.upper, firmSize,
      m.wage (boundaryAnchor m) (m.firms.upper, firmSize),
      m.profit (boundaryAnchor m) (m.firms.upper, firmSize)⟩] := by
  unfold resetSolution at h
  unfold boundaryAnchor
  cases ha : m.assortativity with
  | positive =>
    rw [ha] at h
    simpa using resetAt_ok_inv m m.workers.upper firmSize success i0 s0 h
  | negative =>
    rw [ha] at h
    simpa using resetAt_ok_inv m m.workers.lower firmSize success i0 s0 h

/-- Inversion of a bracket-updating branch tail that continued: the bracket
width check passed, the state carries the given bracket, the guess is its
midpoint, and the boundary row was rebuilt from the new guess. -/
theorem afterBracket_ok_inv (m : ModelEnv) (st : LoopState) (lower upper : ℚ)
    (msgs : List Msg) (stOut : LoopState)
    (h : afterBracket m st lower upper msgs = .ok (.next stOut)) :
    machineEps < upper - lower ∧
    stOut.firmSizeLower = lower ∧ stOut.firmSizeUpper = upper ∧
    stOut.guessFirmSize = (lower + upper) / 2 ∧
    stOut.messages = st.messages ++ msgs ∧
    stOut.integ = ⟨boundaryAnchor m, (m.firms.upper, (lower + upper) / 2),
      st.integ.success⟩ ∧
    stOut.solution = [⟨boundaryAnchor m, m.firms.upper, (lower + upper) / 2,
      m.wage (boundaryAnchor m) (m.firms.upper, (lower + upper) / 2),
      m.profit (boundaryAnchor m) (m.firms.upper, (lower + upper) / 2)⟩] := by
  unfold afterBracket at h
  split at h
  · cases h
  · rename_i g hg
    split at h
    · cases h
    · rename_i is hr
      obtain ⟨hi, hw, hp, hs⟩ := resetSolution_ok_inv m g st.integ.success is.1 is.2 hr
      unfold updateInitialGuess at hg
      split at hg
      · rename_i hwide
        rw [Except.ok.injEq] at hg
        subst hg
        rw [Except.ok.injEq, BodyOut.next.injEq] at h
        subst h
        exact ⟨hwide, rfl, rfl, rfl, rfl, by simpa using hi, by simpa using hs⟩
      · cases hg

/-! Claim theorems. -/

/-- C1 (counterexample): the firms-converged and firms-exhausted tests do
not read the firm-size state component.  At state `y = (0, 5)` with firm
lower bound `0` and `tol = 1`, the code's test is true while the claim's
firm-size reading is false; at `y = (-3, 0)` the code's exhaustion test is
true while the claim's firm-size reading is false. -/
theorem c1_counterexample :
    convergedFirms mPos ⟨0, (0, 5), true⟩ 1 = true ∧
    specConvergedFirmsC1 mPos ⟨0, (0, 5), true⟩ 1 = false ∧
    exhaustedFirms mPos ⟨0, (-3, 0), true⟩ 1 = true ∧
    specExhaustedFirmsC1 mPos ⟨0, (-3, 0), true⟩ 1 = false := by
  refine ⟨?_, ?_, ?_, ?_⟩ <;>
    norm_num [convergedFirms, exhaustedFirms, specConvergedFirmsC1,
      specExhaustedFirmsC1, ratAbs, mPos, constModel]

/-- C1 (amended): firms converged holds exactly when the firm-productivity
(matching) state component — component 0 of the integrator state, not the
firm-size component — is within `tol` of the firm lower bound, and firms
exhausted holds exactly when that component has dropped below the firm lower
bound by more than `tol`. -/
theorem c1_amended (m : ModelEnv) (integ : IntegratorState) (tol : ℚ) :
    (convergedFirms m integ tol = true ↔ |integ.y.1 - m.firms.lower| ≤ tol) ∧
    (exhaustedFirms m integ tol = true ↔ integ.y.1 - m.firms.lower < -tol) := by
  constructor <;> simp [convergedFirms, exhaustedFirms, ratAbs_eq_abs]

/-- C2 (counterexample): under negative assortativity, on a trajectory with
one row satisfying the PAM condition and one row failing it, validation does
not raise, although the claim says it raises as soon as any row satisfies
the condition. -/
theorem c2_counterexample :
    validateSolution mC2 trajC2 = .ok () ∧
    specValidateRaisesC2 mC2 trajC2 = true := by
  constructor <;>
    norm_num [validateSolution, specValidateRaisesC2, checkPam, iscloseZeroAtol,
      ratAbs, mC2, trajC2]

/-- C2 (amended): validation raises iff, for positive assortativity, not
every row satisfies the PAM condition (LHS = inputTypes x quantities,
RHS = spanOfControl x typeResource, satisfied when LHS is within the
`np.isclose` tolerance of RHS or LHS > RHS), and, for negative
assortativity, every row satisfies it (a mixture of satisfying and failing
rows passes). -/
theorem c2_amended (m : ModelEnv) (sol : List Row) :
    validateSolution m sol = .error .validationFailed ↔
      (match m.assortativity with
       | .positive => ¬ ∀ r ∈ sol, pamHolds m r
       | .negative => ∀ r ∈ sol, pamHolds m r) := by
  have hall : ((sol.map (checkPam m)).all (fun b => b) = true) ↔
      (∀ r ∈ sol, pamHolds m r) := by
    rw [List.all_eq_true]
    constructor
    · intro h r hr
      exact (checkPam_eq_true_iff m r).mp (h (checkPam m r) (List.mem_map_of_mem _ hr))
    · intro h b hb
      obtain ⟨r, hr, hrb⟩ := List.mem_map.mp hb
      subst hrb
      exact (checkPam_eq_true_iff m r).mpr (h r hr)
  unfold validateSolution
  cases ha : m.assortativity with
  | positive =>
    simp only [ha]
    split
    · rename_i hc
      exact iff_of_false (by simp) (fun hn => hn (hall.mp hc))
    · rename_i hc
      exact iff_of_true rfl (fun hp => hc (hall.mpr hp))
  | negative =>
    simp only [ha]
    split
    · rename_i hc
      exact iff_of_true rfl (hall.mp hc)
    · rename_i hc
      exact iff_of_false (by simp) (fun hp => hc (hall.mpr hp))

/-- C4: at the start of every solve the bracket is `[0, guess_firm_size_upper]`
with the guess at its midpoint, and row 0 of the trajectory carries the state
`(firm upper bound, guess)` anchored at the worker upper bound for positive
assortativity and at the worker lower bound otherwise, with the wage and
profit evaluated at that point. -/
theorem c4_theorem (m : ModelEnv) (p : SolveParams) (st0 : LoopState)
    (h : solveInit m p = .ok st0) :
    st0.firmSizeLower = 0 ∧ st0.firmSizeUpper = p.guessFirmSizeUpper ∧
    st0.guessFirmSize = (p.guessFirmSizeUpper + 0) / 2 ∧
    st0.integ.t = boundaryAnchor m ∧
    st0.integ.y = (m.firms.upper, st0.guessFirmSize) ∧
    0 < m.wage (boundaryAnchor m) (m.firms.upper, st0.guessFirmSize) ∧
    0 < m.profit (boundaryAnchor m) (m.firms.upper, st0.guessFirmSize) ∧
    st0.solution = [⟨boundaryAnchor m, m.firms.upper, st0.guessFirmSize,
      m.wage (boundaryAnchor m) (m.firms.upper, st0.guessFirmSize),
      m.profit (boundaryAnchor m) (m.firms.upper, st0.guessFirmSize)⟩] := by
  unfold solveInit at h
  split at h
  · cases h
  · rename_i is hr
    obtain ⟨hi, hw, hp, hs⟩ :=
      resetSolution_ok_inv m ((p.guessFirmSizeUpper + 0) / 2) true is.1 is.2 hr
    rw [Except.ok.injEq] at h
    subst h
    refine ⟨rfl, rfl, rfl, ?_, ?_, hw, hp, hs⟩
    · rw [hi]
    · rw [hi]

/-- C4 (witness): the initialisation facts at the concrete model `mPos` and
arguments `pC7`. -/
theorem c4_witness :
    st0C4.firmSizeLower = 0 ∧ st0C4.firmSizeUpper = pC7.guessFirmSizeUpper ∧
    st0C4.guessFirmSize = (pC7.guessFirmSizeUpper + 0) / 2 ∧
    st0C4.integ.t = boundaryAnchor mPos ∧
    st0C4.integ.y = (mPos.firms.upper, st0C4.guessFirmSize) ∧
    0 < mPos.wage (boundaryAnchor mPos) (mPos.firms.upper, st0C4.guessFirmSize) ∧
    0 < mPos.profit (boundaryAnchor mPos) (mPos.firms.upper, st0C4.guessFirmSize) ∧
    st0C4.solution = [⟨boundaryAnchor mPos, mPos.firms.upper, st0C4.guessFirmSize,
      mPos.wage (boundaryAnchor mPos) (mPos.firms.upper, st0C4.guessFirmSize),
      mPos.profit (boundaryAnchor mPos) (mPos.firms.upper, st0C4.guessFirmSize)⟩] :=
  c4_theorem mPos pC7 st0C4 (by
    norm_num [solveInit, resetSolution, resetAt, evaluateWage, evaluateProfit,
      mPos, constModel, pC7, st0C4])

/-- C5: a successful `_update_solution` step moves the independent variable
to `t - step` under positive assortativity and to `t + step` under negative
assortativity, where the step handed over by `solve` is
`(workerUpper - workerLower) / (numberKnots - 1)`. -/
theorem c5_theorem (m : ModelEnv) (ienv : IntegratorEnv) (p : SolveParams)
    (integ integ2 : IntegratorState) (sol sol2 : List Row)
    (h : updateSolution m ienv (solveStepSize m p) integ sol = .ok (integ2, sol2))
    (hs : integ2.success = true) :
    (m.assortativity = .positive → integ2.t = integ.t - solveStepSize m p) ∧
    (m.assortativity = .negative → integ2.t = integ.t + solveStepSize m p) ∧
    solveStepSize m p =
      (m.workers.upper - m.workers.lower) / ((p.numberKnots : ℚ) - 1) := by
  obtain ⟨hi, -, -, -, -⟩ := updateSolution_ok_inv m ienv _ integ integ2 sol sol2 h
  have ht : integ2.t = integrationTarget m (solveStepSize m p) integ := by
    rw [hi]
    unfold integrateTo
    cases he : ienv integ.t integ.y (integrationTarget m (solveStepSize m p) integ) with
    | some ynew => rfl
    | none =>
      exfalso
      rw [hi] at hs
      unfold integrateTo at hs
      rw [he] at hs
      cases hs
  refine ⟨?_, ?_, rfl⟩
  · intro ha
    rw [ht]
    unfold integrationTarget
    rw [ha]
  · intro ha
    rw [ht]
    unfold integrationTarget
    rw [ha]

/-- C5 (witness): a concrete successful step under `mPos`, `ienvConst` and
`pC7` moves `t` from `1` to `1 - 1/2`. -/
theorem c5_witness :
    (mPos.assortativity = .positive →
      integ2C5.t = stC3.integ.t - solveStepSize mPos pC7) ∧
    (mPos.assortativity = .negative →
      integ2C5.t = stC3.integ.t + solveStepSize mPos pC7) ∧
    solveStepSize mPos pC7 =
      (mPos.workers.upper - mPos.workers.lower) / ((pC7.numberKnots : ℚ) - 1) :=
  c5_theorem mPos ienvConst pC7 stC3.integ integ2C5 stC3.solution sol2C5
    (by
      norm_num [updateSolution, appendStep, integrateTo, integrationTarget,
        evaluateWage, evaluateProfit, solveStepSize, mPos, constModel, pC7,
        ienvConst, stC3, integ2C5, sol2C5])
    rfl

/-- C6: every row appended by `_update_solution` has strictly positive firm
size, wage and profit — the appended row carries exactly the evaluated wage
and profit — and whenever the stepped state has non-positive firm size,
wage or profit, the call raises instead of recording a row. -/
theorem c6_theorem (m : ModelEnv) (ienv : IntegratorEnv) (stepSize : ℚ)
    (integ : IntegratorState) (sol : List Row) :
    (∀ integ2 sol2,
      updateSolution m ienv stepSize integ sol = .ok (integ2, sol2) →
      0 < integ2.y.2 ∧ 0 < m.wage integ2.t integ2.y ∧
      0 < m.profit integ2.t integ2.y ∧
      sol2 = sol ++ [⟨integ2.t, integ2.y.1, integ2.y.2, m.wage integ2.t integ2.y,
        m.profit integ2.t integ2.y⟩]) ∧
    ((integrateTo ienv integ (integrationTarget m stepSize integ)).y.2 ≤ 0 ∨
      m.wage (integrateTo ienv integ (integrationTarget m stepSize integ)).t
        (integrateTo ienv integ (integrationTarget m stepSize integ)).y ≤ 0 ∨
      m.profit (integrateTo ienv integ (integrationTarget m stepSize integ)).t
        (integrateTo ienv integ (integrationTarget m stepSize integ)).y ≤ 0 →
      ∃ e, updateSolution m ienv stepSize integ sol = .error e) := by
  constructor
  · intro integ2 sol2 h
    obtain ⟨-, hpos, hw, hp, hs⟩ :=
      updateSolution_ok_inv m ienv stepSize integ integ2 sol sol2 h
    exact ⟨hpos, hw, hp, hs⟩
  · intro hbad
    unfold updateSolution appendStep evaluateWage evaluateProfit
    rcases hbad with hy | hw | hp
    · exact ⟨.firmSizeNonpositive, by rw [if_pos hy]⟩
    · by_cases hy : (integrateTo ienv integ (integrationTarget m stepSize integ)).y.2 ≤ 0
      · exact ⟨.firmSizeNonpositive, by rw [if_pos hy]⟩
      · refine ⟨.wageNonpositive, ?_⟩
        rw [if_neg hy, if_neg (not_lt.mpr hw)]
    · by_cases hy : (integrateTo ienv integ (integrationTarget m stepSize integ)).y.2 ≤ 0
      · exact ⟨.firmSizeNonpositive, by rw [if_pos hy]⟩
      · by_cases hw2 : 0 < m.wage
            (integrateTo ienv integ (integrationTarget m stepSize integ)).t
            (integrateTo ienv integ (integrationTarget m stepSize integ)).y
        · refine ⟨.profitNonpositive, ?_⟩
          rw [if_neg hy, if_pos hw2, if_neg (not_lt.mpr hp)]
        · refine ⟨.wageNonpositive, ?_⟩
          rw [if_neg hy, if_neg hw2]

/-- C6 (witness): a concrete appended row `(1/2, 5, 10, 1, 1)` with positive
firm size, wage and profit, and a concrete stepped state with firm size `-1`
on which the call raises. -/
theorem c6_witness :
    (0 < integ2C5.y.2 ∧ 0 < mPos.wage integ2C5.t integ2C5.y ∧
      0 < mPos.profit integ2C5.t integ2C5.y ∧
      sol2C5 = stC3.solution ++ [⟨integ2C5.t, integ2C5.y.1, integ2C5.y.2,
        mPos.wage integ2C5.t integ2C5.y, mPos.profit integ2C5.t integ2C5.y⟩]) ∧
    (∃ e, updateSolution mPos ienvBadSize (1 / 2) stC3.integ stC3.solution =
      .error e) :=
  ⟨(c6_theorem mPos ienvConst (1 / 2) stC3.integ stC3.solution).1 integ2C5 sol2C5
      (by
        norm_num [updateSolution, appendStep, integrateTo, integrationTarget,
          evaluateWage, evaluateProfit, mPos, constModel, ienvConst, stC3,
          integ2C5, sol2C5]),
    (c6_theorem mPos ienvBadSize (1 / 2) stC3.integ stC3.solution).2
      (Or.inl (by
        norm_num [integrateTo, integrationTarget, mPos, constModel, ienvBadSize,
          stC3]))⟩

/-- C3: for every non-terminal classification that updates the bracket, the
decision table holds: firms exhausted (with or without worker convergence)
raises the bracket's lower bound to the current guess; workers converged with
firms not exhausted lowers the bracket's upper bound to the current guess;
and after either update the new guess is the midpoint of the updated bracket
and the boundary-condition row is rebuilt from the new guess. -/
theorem c3_theorem (m : ModelEnv) (ienv : IntegratorEnv) (p : SolveParams)
    (stepSize : ℚ) (st stOut : LoopState) (integ2 : IntegratorState)
    (sol2 : List Row)
    (hsucc : st.integ.success = true)
    (hglow : guessFirmSizeUpperTooLow p.guessFirmSizeUpper p.tol st.integ = false)
    (hupd : updateSolution m ienv stepSize st.integ st.solution = .ok (integ2, sol2))
    (hbody : loopBody m ienv p stepSize st = .ok (.next stOut))
    (hbr : exhaustedFirms m integ2 p.tol = true ∨
        (convergedWorkers m integ2 p.tol = true ∧
          exhaustedFirms m integ2 p.tol = false)) :
    (exhaustedFirms m integ2 p.tol = true →
      stOut.firmSizeLower = st.guessFirmSize ∧
      stOut.firmSizeUpper = st.firmSizeUpper) ∧
    (convergedWorkers m integ2 p.tol = true →
      exhaustedFirms m integ2 p.tol = false →
      stOut.firmSizeLower = st.firmSizeLower ∧
      stOut.firmSizeUpper = st.guessFirmSize) ∧
    stOut.guessFirmSize = (stOut.firmSizeLower + stOut.firmSizeUpper) / 2 ∧
    machineEps < stOut.firmSizeUpper - stOut.firmSizeLower ∧
    stOut.integ = ⟨boundaryAnchor m, (m.firms.upper, stOut.guessFirmSize),
      integ2.success⟩ ∧
    stOut.solution = [⟨boundaryAnchor m, m.firms.upper, stOut.guessFirmSize,
      m.wage (boundaryAnchor m) (m.firms.upper, stOut.guessFirmSize),
      m.profit (boundaryAnchor m) (m.firms.upper, stOut.guessFirmSize)⟩] := by
  unfold loopBody at hbody
  simp only [hsucc, hglow, hupd] at hbody
  rcases hbr with hex | ⟨hcw, hex⟩
  · cases hcw2 : convergedWorkers m integ2 p.tol with
    | false =>
      simp only [hcw2, hex] at hbody
      obtain ⟨hwide, h1, h2, h3, hmsg, hi, hsol⟩ :=
        afterBracket_ok_inv m _ st.guessFirmSize st.firmSizeUpper _ stOut hbody
      refine ⟨fun _ => ⟨h1, h2⟩, ?_, ?_, ?_, ?_, ?_⟩
      · intro hcwt
        simp at hcwt
      · rw [h1, h2, h3]
      · rw [h1, h2]
        exact hwide
      · rw [h3]
        simpa using hi
      · rw [h3]
        simpa using hsol
    | true =>
      cases hcf2 : convergedFirms m integ2 p.tol with
      | true =>
        exact absurd hex
          (by simpa using convergedFirms_exhaustedFirms_exclusive m integ2 p.tol hcf2)
      | false =>
        simp only [hcw2, hcf2, hex] at hbody
        obtain ⟨hwide, h1, h2, h3, hmsg, hi, hsol⟩ :=
          afterBracket_ok_inv m _ st.guessFirmSize st.firmSizeUpper _ stOut hbody
        refine ⟨fun _ => ⟨h1, h2⟩, ?_, ?_, ?_, ?_, ?_⟩
        · intro _ hexf
          rw [hex] at hexf
          cases hexf
        · rw [h1, h2, h3]
        · rw [h1, h2]
          exact hwide
        · rw [h3]
          simpa using hi
        · rw [h3]
          simpa using hsol
  · cases hcf2 : convergedFirms m integ2 p.tol with
    | true =>
      simp only [hcw, hcf2, hex] at hbody
      cases hv : validateSolution m sol2 with
      | error e =>
        rw [hv] at hbody
        cases hbody
      | ok u =>
        rw [hv] at hbody
        cases hbody
    | false =>
      simp only [hcw, hcf2, hex] at hbody
      obtain ⟨hwide, h1, h2, h3, hmsg, hi, hsol⟩ :=
        afterBracket_ok_inv m _ st.firmSizeLower st.guessFirmSize _ stOut hbody
      refine ⟨?_, fun _ _ => ⟨h1, h2⟩, ?_, ?_, ?_, ?_⟩
      · intro hext
        rw [hex] at hext
        cases hext
      · rw [h1, h2, h3]
      · rw [h1, h2]
        exact hwide
      · rw [h3]
        simpa using hi
      · rw [h3]
        simpa using hsol

/-- C3 (witness): the exhausted-firms branch at a concrete state: bracket
`[0, 1]` with guess `1/2` becomes `[1/2, 1]` with guess `3/4`, and the
boundary row is rebuilt from `3/4`. -/
theorem c3_witness :
    (exhaustedFirms mPos integ2C3 pC7.tol = true →
      stOutC3.firmSizeLower = stC3.guessFirmSize ∧
      stOutC3.firmSizeUpper = stC3.firmSizeUpper) ∧
    (convergedWorkers mPos integ2C3 pC7.tol = true →
      exhaustedFirms mPos integ2C3 pC7.tol = false →
      stOutC3.firmSizeLower = stC3.firmSizeLower ∧
      stOutC3.firmSizeUpper = stC3.guessFirmSize) ∧
    stOutC3.guessFirmSize = (stOutC3.firmSizeLower + stOutC3.firmSizeUpper) / 2 ∧
    machineEps < stOutC3.firmSizeUpper - stOutC3.firmSizeLower ∧
    stOutC3.integ = ⟨boundaryAnchor mPos, (mPos.firms.upper, stOutC3.guessFirmSize),
      integ2C3.success⟩ ∧
    stOutC3.solution = [⟨boundaryAnchor mPos, mPos.firms.upper, stOutC3.guessFirmSize,
      mPos.wage (boundaryAnchor mPos) (mPos.firms.upper, stOutC3.guessFirmSize),
      mPos.profit (boundaryAnchor mPos) (mPos.firms.upper, stOutC3.guessFirmSize)⟩] :=
  c3_theorem mPos ienvExhaust pC7 (1 / 2) stC3 stOutC3 integ2C3 sol2C3
    rfl
    (by norm_num [guessFirmSizeUpperTooLow, ratAbs, pC7, stC3])
    (by
      norm_num [updateSolution, appendStep, integrateTo, integrationTarget,
        evaluateWage, evaluateProfit, mPos, constModel, ienvExhaust, stC3,
        integ2C3, sol2C3])
    (by
      norm_num [loopBody, afterBracket, updateSolution, appendStep, integrateTo,
        integrationTarget, evaluateWage, evaluateProfit, updateInitialGuess,
        guessFirmSizeUpperTooLow, convergedWorkers, convergedFirms,
        exhaustedFirms, resetSolution, resetAt, machineEps, ratAbs, mPos,
        constModel, pC7, ienvExhaust, stC3, stOutC3])
    (Or.inl (by norm_num [exhaustedFirms, ratAbs, mPos, constModel, integ2C3, pC7]))

/-- C7 (counterexample): with `number_knots = 3` — the only caller-supplied
count among the arguments of `solve` — the shooting loop is still running
after `number_knots` iterations, so no caller-supplied argument bounds the
number of loop iterations. -/
theorem c7_counterexample :
    stillRunning (solve mPos ienvConst pC7 pC7.numberKnots) = true ∧
    pC7.numberKnots = 3 := by
  constructor
  · norm_num [solve, solveInit, solveLoop, loopBody, afterBracket,
      resetSolution, resetAt, evaluateWage, evaluateProfit, updateSolution,
      appendStep, integrateTo, integrationTarget, updateInitialGuess,
      guessFirmSizeUpperTooLow, convergedWorkers, convergedFirms,
      exhaustedFirms, solveStepSize, machineEps, ratAbs, stillRunning,
      mPos, constModel, pC7, ienvConst]
  · rfl

/-- C7 (amended): `solve` takes no maximum-iteration argument, and the
number of shooting-loop iterations is not bounded by any of its arguments:
with the same inputs the loop is still running after four times
`number_knots` iterations (it keeps bisecting until bracket collapse or one
of its own stop branches fires). -/
theorem c7_amended :
    stillRunning (solve mPos ienvConst pC7 (4 * pC7.numberKnots)) = true := by
  norm_num [solve, solveInit, solveLoop, loopBody, afterBracket,
    resetSolution, resetAt, evaluateWage, evaluateProfit, updateSolution,
    appendStep, integrateTo, integrationTarget, updateInitialGuess,
    guessFirmSizeUpperTooLow, convergedWorkers, convergedFirms,
    exhaustedFirms, solveStepSize, machineEps, ratAbs, stillRunning,
    mPos, constModel, pC7, ienvConst]

/-- C8 (counterexample): with the default `message = False`, a run that stops
because the firm-size component equals the caller's upper guess bound within
tolerance returns normally with no output at all: the infeasibility is
neither raised nor reported to the caller. -/
theorem c8_counterexample :
    exitReasonOf (solve mPos ienvConst pC8 5) = some .guessUpperTooLow ∧
    messagesOf (solve mPos ienvConst pC8 5) = some [] := by
  constructor <;>
    norm_num [solve, solveInit, solveLoop, loopBody, resetSolution, resetAt,
      evaluateWage, evaluateProfit, guessFirmSizeUpperTooLow, solveStepSize,
      ratAbs, exitReasonOf, messagesOf, mPos, constModel, pC8, ienvConst]

/-- C8 (amended): of the two search-infeasibility conditions, the bracket
collapse below machine epsilon is raised as an assertion failure, while the
guess-too-low condition only stops the loop and is announced only when the
`message` flag is set (the default is silent). -/
theorem c8_amended :
    (∀ lower upper : ℚ, ¬ machineEps < upper - lower →
      updateInitialGuess lower upper = .error .bracketCollapse) ∧
    (∀ (m : ModelEnv) (ienv : IntegratorEnv) (p : SolveParams) (stepSize : ℚ)
        (st : LoopState),
      st.integ.success = true →
      guessFirmSizeUpperTooLow p.guessFirmSizeUpper p.tol st.integ = true →
      loopBody m ienv p stepSize st = .ok (.halt .guessUpperTooLow
        ⟨st.integ, st.solution, st.firmSizeLower, st.firmSizeUpper,
          st.guessFirmSize,
          st.messages ++ (if p.message = true then [Msg.guessUpperTooLow] else [])⟩)) := by
  constructor
  · intro lower upper h
    unfold updateInitialGuess
    rw [if_neg h]
  · intro m ienv p stepSize st hs hg
    unfold loopBody
    simp [hs, hg]

/-- C8 (witness): a collapsed bracket `[0, 0]` raises the assertion error,
and with `message = True` the guess-too-low stop does append its report. -/
theorem c8_witness :
    updateInitialGuess 0 0 = .error .bracketCollapse ∧
    loopBody mPos ienvConst pC8msg (1 / 2) stC8 = .ok (.halt .guessUpperTooLow
      ⟨stC8.integ, stC8.solution, stC8.firmSizeLower, stC8.firmSizeUpper,
        stC8.guessFirmSize, stC8.messages ++ [Msg.guessUpperTooLow]⟩) :=
  ⟨c8_amended.1 0 0 (by norm_num [machineEps]),
    c8_amended.2 mPos ienvConst pC8msg (1 / 2) stC8 rfl
      (by norm_num [guessFirmSizeUpperTooLow, ratAbs, pC8msg, stC8])⟩

/-- C9: for every query index, the residual diagnostic equals the first
derivative of the fitted spline at that point minus the ODE right-hand side
evaluated at the spline's own order-0 value there, and both evaluations read
the same spline representation, fitted through the solution table with
smoothing factor `0` (exact interpolation, no smoothing). -/
theorem c9_theorem {T : Type} (se : SplineEnv T) (m : ModelEnv) (traj : List Row)
    (x : List ℚ) (k ext i : ℕ) (di si : ℚ × ℚ) (xi : ℚ)
    (hd : (interpolate se m traj x k 1 ext).get? i = some di)
    (hx : x.get? i = some xi)
    (hs : (interpolate se m traj x k 0 ext).get? i = some si) :
    (evaluateResidual se m traj x k ext).get? i =
      some (di.1 - (m.rhs xi si).1, di.2 - (m.rhs xi si).2) ∧
    interpolate se m traj x k 1 ext =
      se.splev x (se.splprep ((solutionTable m.assortativity traj).map
          (fun r => (r.firmProductivity, r.firmSize)))
        ((solutionTable m.assortativity traj).map Row.x) k 0) 1 ext := by
  constructor
  · have hrhs : ((x.zip (interpolate se m traj x k 0 ext)).map
        (fun q => m.rhs q.1 q.2)).get? i = some (m.rhs xi si) := by
      rw [List.get?_map, get?_zip_eq_some x _ i xi si hx hs]
      rfl
    unfold evaluateResidual
    rw [List.get?_map, get?_zip_eq_some _ _ i di (m.rhs xi si) hd hrhs]
    rfl
  · rfl

/-- C9 (witness): at the concrete spline environment `seC9` and query points
`(2, 5)`, the residual at index 1 is the derivative value `(6, 5)` minus the
right-hand side `(0, 0)` at the interpolated value `(5, 5)`. -/
theorem c9_witness :
    (evaluateResidual seC9 mPos trajC9 xC9 3 2).get? 1 =
      some (((6 : ℚ), (5 : ℚ)).1 - (mPos.rhs 5 (5, 5)).1,
        ((6 : ℚ), (5 : ℚ)).2 - (mPos.rhs 5 (5, 5)).2) ∧
    interpolate seC9 mPos trajC9 xC9 3 1 2 =
      seC9.splev xC9 (seC9.splprep ((solutionTable mPos.assortativity trajC9).map
          (fun r => (r.firmProductivity, r.firmSize)))
        ((solutionTable mPos.assortativity trajC9).map Row.x) 3 0) 1 2 :=
  c9_theorem seC9 mPos trajC9 xC9 3 2 1 (6, 5) (5, 5) 5
    (by
      norm_num [interpolate, solutionTable, sortByX, List.insertionSort,
        List.orderedInsert, seC9, trajC9, xC9, mPos, constModel])
    (by norm_num [xC9])
    (by
      norm_num [interpolate, solutionTable, sortByX, List.insertionSort,
        List.orderedInsert, seC9, trajC9, xC9, mPos, constModel])

/-- C10: reading the public solution table never changes the stored
trajectory, which stays in integration order for either assortativity; two
consecutive reads return equal tables; and the table itself is (for positive
assortativity) an `x`-sorted permutation of the stored rows, or (for
negative) the stored rows themselves. -/
theorem c10_theorem (assort : Assortativity) (stored : List Row) :
    (readSolution assort stored).2 = stored ∧
    (readSolution assort ((readSolution assort stored).2)).1 =
      (readSolution assort stored).1 ∧
    solutionTable Assortativity.negative stored = stored ∧
    (solutionTable Assortativity.positive stored).Perm stored ∧
    List.Sorted rowLe (solutionTable Assortativity.positive stored) := by
  refine ⟨rfl, rfl, rfl, ?_, ?_⟩
  · exact List.perm_insertionSort rowLe stored
  · exact List.sorted_insertionSort rowLe stored

end ShootingSolver
